import Mathlib

/-
A shallow embedding of the test-execution harness of the `ldmunit` library
(`ldmunit/testing/base.py` and `ldmunit/models/utils.py`), together with
theorems checking the natural-language specification against it.

Conventions used throughout:
* Python lists / numpy arrays are embedded as Lean `List`s; numpy scalars and
  Python floats as `ℚ` (exact arithmetic stands in for IEEE doubles).
* A model is embedded as a record of pure transition functions over an
  explicit state type `σ`; the Python object's mutable state becomes explicit
  state passing.
* Fallible operations (dictionary lookup raising `KeyError`, numpy fancy
  indexing raising `IndexError`, failing `assert` statements) are embedded
  with `Except` / `Option`.
-/

namespace LDMUnit

/-! ### Interactive models

Embedding of the model contract used by `InteractiveTest`
(`reset()`, `predict(stimulus)`, `update(stimulus, reward, action, done)`),
see `ldmunit/testing/base.py` lines 193-216.  `σ` is the model's internal
state, `S`/`R`/`A`/`P` the stimulus / reward / action / prediction types. -/

structure IModel (σ S R A P : Type) where
  reset : σ → σ
  predict : σ → S → P
  update : σ → S → R → A → Bool → σ

/-- A Python exception relevant to the embedded code paths. -/
inductive PyError where
  | keyError (key : String)
  deriving DecidableEq, Repr

/-- The observation mapping consumed by `InteractiveTest.predict_single`.
A `none` field embeds a dictionary in which that key is absent, so that
`observations["stimuli"]` etc. can raise `KeyError`. -/
structure Observations (S R A : Type) where
  stimuli : Option (List S)
  rewards : Option (List R)
  actions : Option (List A)

/-- Embeds the Python dictionary lookup `observations[key]`:
returns the value or raises `KeyError(key)`. -/
def getKey {α : Type} (key : String) : Option α → Except PyError α
  | some v => Except.ok v
  | none => Except.error (PyError.keyError key)

/-- The `for s, r, a in zip(stimuli, rewards, actions)` loop body of
`InteractiveTest.predict_single` (base.py lines 213-215): for each trial,
first `model.predict(s)` is appended to the predictions, then
`model.update(s, r, a, False)` advances the model state.  As with Python's
`zip`, iteration stops at the shortest of the three lists. -/
def interactiveLoop (m : IModel σ S R A P) :
    σ → List S → List R → List A → List P × σ
  | st, s :: ss, r :: rs, a :: acts =>
    let p := m.predict st s
    let st1 := m.update st s r a false
    let res := interactiveLoop m st1 ss rs acts
    (p :: res.1, res.2)
  | st, _, _, _ => ([], st)

/-- `InteractiveTest.predict_single` (base.py lines 193-216): looks up the
three observation arrays, resets the model, then runs the interactive loop.
Returns the predictions together with the final model state. -/
def InteractiveTest.predict_single (m : IModel σ S R A P) (st : σ)
    (observations : Observations S R A) : Except PyError (List P × σ) :=
  match getKey "stimuli" observations.stimuli with
  | Except.error e => Except.error e
  | Except.ok stimuli =>
    match getKey "rewards" observations.rewards with
    | Except.error e => Except.error e
    | Except.ok rewards =>
      match getKey "actions" observations.actions with
      | Except.error e => Except.error e
      | Except.ok actions =>
        Except.ok (interactiveLoop m (m.reset st) stimuli rewards actions)

/-- Folds the model's `update` (with `done = False`) over a list of
(stimulus, reward, action) trials, in order. -/
def runTrials (m : IModel σ S R A P) (st0 : σ) (trials : List (S × R × A)) : σ :=
  trials.foldl (fun st t => m.update st t.1 t.2.1 t.2.2 false) st0

/-- The model state visible to the `k`-th `predict` call of
`InteractiveTest.predict_single`: the state reached from `st` by first
calling `reset`, then applying `update` (with `done = False`) for exactly
the first `k` trials, in input order. -/
def stateAfter (m : IModel σ S R A P) (st : σ)
    (stimuli : List S) (rewards : List R) (actions : List A) (k : ℕ) : σ :=
  runTrials m (m.reset st) ((stimuli.zip (rewards.zip actions)).take k)

theorem interactiveLoop_length (m : IModel σ S R A P) :
    ∀ (ss : List S) (rs : List R) (acts : List A) (st : σ),
      (interactiveLoop m st ss rs acts).1.length =
        min ss.length (min rs.length acts.length) := by
  intro ss
  induction ss with
  | nil => intro rs acts st; simp [interactiveLoop]
  | cons s ss ih =>
    intro rs acts st
    cases rs with
    | nil => simp [interactiveLoop]
    | cons r rs =>
      cases acts with
      | nil => simp [interactiveLoop]
      | cons a acts =>
        simp only [interactiveLoop, List.length_cons, ih]
        omega

theorem interactiveLoop_getElem (m : IModel σ S R A P) :
    ∀ (ss : List S) (rs : List R) (acts : List A) (st0 : σ),
      ss.length = rs.length → rs.length = acts.length →
      ∀ k : ℕ, (interactiveLoop m st0 ss rs acts).1[k]? =
        (ss[k]?).map
          (fun s => m.predict (runTrials m st0 ((ss.zip (rs.zip acts)).take k)) s) := by
  intro ss
  induction ss with
  | nil =>
    intro rs acts st0 h1 h2 k
    simp [interactiveLoop]
  | cons s ss ih =>
    intro rs acts st0 h1 h2 k
    cases rs with
    | nil => simp at h1
    | cons r rs =>
      cases acts with
      | nil => simp at h2
      | cons a acts =>
        simp only [List.length_cons, Nat.succ_inj] at h1 h2
        cases k with
        | zero =>
          simp [interactiveLoop, runTrials]
        | succ k =>
          simp only [interactiveLoop, List.getElem?_cons_succ, List.zip_cons_cons,
            List.take_succ_cons, runTrials, List.foldl_cons]
          exact ih rs acts (m.update st0 s r a false) h1 h2 k

/-- C1: for every Interactive-capable model and every single-subject
observation mapping with equal-length stimuli, rewards and actions arrays,
`InteractiveTest.predict_single` first resets the model's state, then for
each trial in input order calls `predict` on the current stimulus before
calling `update` with `(stimulus, reward, action, done = false)`, and
returns the predictions in trial order with length equal to the number of
trials.  (The `k`-th prediction is `predict` applied to the state obtained
by `reset` followed by the updates of exactly the first `k` trials —
see `stateAfter`.) -/
theorem interactive_predict_single_spec
    (m : IModel σ S R A P) (st : σ) (obs : Observations S R A)
    (ss : List S) (rs : List R) (acts : List A)
    (hs : obs.stimuli = some ss) (hr : obs.rewards = some rs)
    (ha : obs.actions = some acts)
    (h1 : ss.length = rs.length) (h2 : rs.length = acts.length) :
    ∃ ps stf, InteractiveTest.predict_single m st obs = Except.ok (ps, stf) ∧
      ps.length = ss.length ∧
      ∀ k : ℕ, ps[k]? =
        (ss[k]?).map (fun s => m.predict (stateAfter m st ss rs acts k) s) := by
  refine ⟨(interactiveLoop m (m.reset st) ss rs acts).1,
    (interactiveLoop m (m.reset st) ss rs acts).2, ?_, ?_, ?_⟩
  · simp [InteractiveTest.predict_single, hs, hr, ha, getKey]
  · rw [interactiveLoop_length]
    omega
  · intro k
    exact interactiveLoop_getElem m ss rs acts (m.reset st) h1 h2 k

/-- A concrete interactive model used by witnesses: state counts the number
of updates seen so far; `predict` returns the stimulus plus the count. -/
def counterIModel : IModel ℕ ℕ ℕ ℕ ℕ where
  reset := fun _ => 0
  predict := fun st s => st * 100 + s
  update := fun st _ _ _ _ => st + 1

theorem interactive_predict_single_spec_witness :
    ∃ ps stf,
      InteractiveTest.predict_single counterIModel 5
        ⟨some [7, 8, 9], some [1, 0, 1], some [2, 3, 4]⟩ = Except.ok (ps, stf) ∧
      ps.length = ([7, 8, 9] : List ℕ).length ∧
      ∀ k : ℕ, ps[k]? =
        (([7, 8, 9] : List ℕ)[k]?).map
          (fun s => counterIModel.predict
            (stateAfter counterIModel 5 [7, 8, 9] [1, 0, 1] [2, 3, 4] k) s) :=
  interactive_predict_single_spec counterIModel 5
    ⟨some [7, 8, 9], some [1, 0, 1], some [2, 3, 4]⟩ [7, 8, 9] [1, 0, 1] [2, 3, 4]
    rfl rfl rfl rfl rfl

/-- C10: for every observation mapping containing the three keys,
`InteractiveTest.predict_single` returns exactly
`min (len stimuli) (min (len rewards) (len actions))` predictions — unequal
lengths silently drop the trailing trials of the longer arrays via `zip`
instead of raising — and an observation mapping lacking the `rewards` key
fails with `KeyError "rewards"`. -/
theorem interactive_predict_single_truncation
    (m : IModel σ S R A P) (st : σ) (obs : Observations S R A)
    (ss : List S) (rs : List R) (acts : List A)
    (hs : obs.stimuli = some ss) (hr : obs.rewards = some rs)
    (ha : obs.actions = some acts) :
    (∃ ps stf, InteractiveTest.predict_single m st obs = Except.ok (ps, stf) ∧
      ps.length = min ss.length (min rs.length acts.length)) ∧
    (∀ (ss2 : List S) (acts2 : List A),
      InteractiveTest.predict_single m st ⟨some ss2, none, some acts2⟩ =
        Except.error (PyError.keyError "rewards")) := by
  constructor
  · refine ⟨(interactiveLoop m (m.reset st) ss rs acts).1,
      (interactiveLoop m (m.reset st) ss rs acts).2, ?_, ?_⟩
    · simp [InteractiveTest.predict_single, hs, hr, ha, getKey]
    · exact interactiveLoop_length m ss rs acts (m.reset st)
  · intro ss2 acts2
    simp [InteractiveTest.predict_single, getKey]

theorem interactive_predict_single_truncation_witness :
    (∃ ps stf,
      InteractiveTest.predict_single counterIModel 0
        ⟨some [7, 8, 9], some [1], some [2, 3]⟩ = Except.ok (ps, stf) ∧
      ps.length =
        min ([7, 8, 9] : List ℕ).length
          (min ([1] : List ℕ).length ([2, 3] : List ℕ).length)) ∧
    (∀ (ss2 : List ℕ) (acts2 : List ℕ),
      InteractiveTest.predict_single counterIModel 0
        ⟨some ss2, none, some acts2⟩ =
        Except.error (PyError.keyError "rewards")) :=
  interactive_predict_single_truncation counterIModel 0
    ⟨some [7, 8, 9], some [1], some [2, 3]⟩ [7, 8, 9] [1] [2, 3] rfl rfl rfl

/-! ### Score aggregation (`LDMTest.compute_score`, base.py lines 90-109)

In the multi-subject branch, `compute_score` loops
`for subj_idx in range(n_subj)` collecting
`compute_score_single(observations[subj_idx], predictions[subj_idx]).score`
into `scores`, then returns `score_aggr_fn(scores)` (wrapped in the score
type, which carries the scalar unchanged).  The default `score_aggr_fn` is
`np.mean`.  Scores are embedded as `ℚ`. -/

variable {Obs Pred : Type}

/-- `np.mean` on a list of scalars: sum divided by length. -/
def npMean (xs : List ℚ) : ℚ := xs.sum / xs.length

/-- The score-collection loop of `LDMTest.compute_score` (base.py lines
93-103).  Indexing `predictions[subj_idx]` for `subj_idx` in
`range(len(observations))` is embedded by walking the two lists in parallel;
running out of predictions (Python `IndexError`) is `none`, and predictions
beyond the number of subjects are ignored, exactly as positional indexing
does. -/
def scoresLoop (f : Obs → Pred → ℚ) : List Obs → List Pred → Option (List ℚ)
  | [], _ => some []
  | _ :: _, [] => none
  | o :: os, p :: ps => (scoresLoop f os ps).map (fun t => f o p :: t)

/-- The multi-subject branch of `LDMTest.compute_score`:
collect per-subject scores, then reduce with `score_aggr_fn`. -/
def LDMTest.compute_score_multi (score_aggr_fn : List ℚ → ℚ)
    (f : Obs → Pred → ℚ) (obsList : List Obs) (preds : List Pred) : Option ℚ :=
  (scoresLoop f obsList preds).map score_aggr_fn

theorem scoresLoop_eq_zipWith (f : Obs → Pred → ℚ) :
    ∀ (os : List Obs) (ps : List Pred), os.length ≤ ps.length →
      scoresLoop f os ps = some (List.zipWith f os ps) := by
  intro os
  induction os with
  | nil => intro ps h; simp [scoresLoop]
  | cons o os ih =>
    intro ps h
    cases ps with
    | nil => simp at h
    | cons p ps =>
      simp only [List.length_cons, Nat.succ_le_succ_iff] at h
      simp [scoresLoop, ih ps h]

/-- C2: for every multi-subject run over `N` subjects with the default score
reducer (`np.mean`), the aggregate score equals the arithmetic mean of the
`N` per-subject scores, and `np.mean` is invariant under any permutation of
the per-subject score list. -/
theorem compute_score_mean_perm_invariant
    (f : Obs → Pred → ℚ) (obsList : List Obs) (preds : List Pred)
    (h : obsList.length ≤ preds.length) :
    LDMTest.compute_score_multi npMean f obsList preds =
      some ((List.zipWith f obsList preds).sum / obsList.length) ∧
    ∀ l l' : List ℚ, l.Perm l' → npMean l = npMean l' := by
  constructor
  · have hlen : (List.zipWith f obsList preds).length = obsList.length := by
      rw [List.length_zipWith]
      omega
    rw [LDMTest.compute_score_multi, scoresLoop_eq_zipWith f obsList preds h,
      Option.map_some']
    rw [npMean, hlen]
  · intro l l' hperm
    rw [npMean, npMean, hperm.sum_eq, hperm.length_eq]

theorem compute_score_mean_perm_invariant_witness :
    LDMTest.compute_score_multi npMean (fun (o : ℚ) (p : ℚ) => o + p)
        [1, 2] [3, 4] =
      some ((List.zipWith (fun (o : ℚ) (p : ℚ) => o + p) [1, 2] [3, 4]).sum /
        ([1, 2] : List ℚ).length) ∧
    ∀ l l' : List ℚ, l.Perm l' → npMean l = npMean l' :=
  compute_score_mean_perm_invariant (fun o p => o + p) [1, 2] [3, 4]
    (by decide)

/-! ### `BatchTrainAndTest` with explicit indices (base.py lines 297-309)

The model contract used here is `BatchTrainable`: `fit(stimuli, actions)`
mutates the model, `predict(stimuli)` maps a batch of stimuli to a batch of
predictions. -/

structure BModel (σ S A P : Type) where
  fit : σ → List S → List A → σ
  predict : σ → List S → List P

/-- numpy fancy indexing `xs[idx]` for an integer index array: returns the
selected elements in index order, or `none` if some index is out of range
(`IndexError`). -/
def npTake (xs : List α) : List ℕ → Option (List α)
  | [] => some []
  | i :: idx =>
    match xs[i]? with
    | none => none
    | some v => (npTake xs idx).map (fun t => v :: t)

/-- `BatchTrainAndTest.predict_single` (base.py lines 297-305): fit on the
training slices of stimuli and actions, then predict on the test slice of
the stimuli.  Returns the predictions and the fitted model state. -/
def BatchTrainAndTest.predict_single (m : BModel σ S A P) (st : σ)
    (train_indices test_indices : List ℕ)
    (stimuli : List S) (actions : List A) : Option (List P × σ) :=
  match npTake stimuli train_indices with
  | none => none
  | some x_train =>
    match npTake actions train_indices with
    | none => none
    | some y_train =>
      let st1 := m.fit st x_train y_train
      match npTake stimuli test_indices with
      | none => none
      | some x_test => some (m.predict st1 x_test, st1)

/-- `BatchTrainAndTest.compute_score_single` (base.py lines 307-309):
score the predictions against the actions at the test indices only. -/
def BatchTrainAndTest.compute_score_single (scoreFn : List A → List P → ℚ)
    (test_indices : List ℕ) (actions : List A) (preds : List P) : Option ℚ :=
  (npTake actions test_indices).map (fun acts => scoreFn acts preds)

theorem npTake_some_of_bounds (xs : List α) :
    ∀ idx : List ℕ, (∀ i ∈ idx, i < xs.length) →
      ∃ ys, npTake xs idx = some ys ∧ ys.length = idx.length := by
  intro idx
  induction idx with
  | nil => intro h; exact ⟨[], rfl, rfl⟩
  | cons i idx ih =>
    intro h
    have hi : i < xs.length := h i (List.mem_cons_self i idx)
    obtain ⟨ys, hys, hlen⟩ := ih (fun j hj => h j (List.mem_cons_of_mem i hj))
    refine ⟨xs[i] :: ys, ?_, by simp [hlen]⟩
    simp [npTake, List.getElem?_eq_getElem hi, hys]

theorem npTake_congr (idx : List ℕ) (a1 a2 : List α)
    (h : ∀ i ∈ idx, a1[i]? = a2[i]?) : npTake a1 idx = npTake a2 idx := by
  induction idx with
  | nil => rfl
  | cons i idx ih =>
    have hi : a1[i]? = a2[i]? := h i (List.mem_cons_self i idx)
    have ht := ih (fun j hj => h j (List.mem_cons_of_mem i hj))
    simp [npTake, hi, ht]

/-- C3: for every `BatchTrainAndTest` constructed with explicit
`train_indices` and `test_indices` (all in range, and with the model's batch
`predict` producing one prediction per stimulus), `predict_single` fits the
model on the stimuli and actions at `train_indices` and returns predictions
of length `len(test_indices)` computed by the fitted model on the test-slice
stimuli; and `compute_score_single` depends only on the actions at
`test_indices`: replacing the actions anywhere else — in particular at
`train_indices` — leaves the score unchanged. -/
theorem batch_train_and_test_explicit_spec
    (m : BModel σ S A P) (st : σ) (train_indices test_indices : List ℕ)
    (stimuli : List S) (actions : List A)
    (hpred : ∀ (st2 : σ) (xs : List S), (m.predict st2 xs).length = xs.length)
    (htr : ∀ i ∈ train_indices, i < stimuli.length ∧ i < actions.length)
    (hte : ∀ i ∈ test_indices, i < stimuli.length) :
    (∃ x_train y_train x_test,
       npTake stimuli train_indices = some x_train ∧
       npTake actions train_indices = some y_train ∧
       npTake stimuli test_indices = some x_test ∧
       BatchTrainAndTest.predict_single m st train_indices test_indices
           stimuli actions =
         some (m.predict (m.fit st x_train y_train) x_test,
           m.fit st x_train y_train) ∧
       (m.predict (m.fit st x_train y_train) x_test).length =
         test_indices.length) ∧
    (∀ (scoreFn : List A → List P → ℚ) (actions2 : List A) (preds : List P),
       (∀ i ∈ test_indices, actions[i]? = actions2[i]?) →
       BatchTrainAndTest.compute_score_single scoreFn test_indices
           actions preds =
         BatchTrainAndTest.compute_score_single scoreFn test_indices
           actions2 preds) := by
  obtain ⟨x_train, hxtr, _⟩ :=
    npTake_some_of_bounds stimuli train_indices (fun i hi => (htr i hi).1)
  obtain ⟨y_train, hytr, _⟩ :=
    npTake_some_of_bounds actions train_indices (fun i hi => (htr i hi).2)
  obtain ⟨x_test, hxte, hxtelen⟩ :=
    npTake_some_of_bounds stimuli test_indices hte
  constructor
  · refine ⟨x_train, y_train, x_test, hxtr, hytr, hxte, ?_, ?_⟩
    · simp [BatchTrainAndTest.predict_single, hxtr, hytr, hxte]
    · rw [hpred, hxtelen]
  · intro scoreFn actions2 preds hagree
    rw [BatchTrainAndTest.compute_score_single,
      BatchTrainAndTest.compute_score_single,
      npTake_congr test_indices actions actions2 hagree]

/-- A concrete batch-trainable model used by witnesses: the state accumulates
the training data, `predict` shifts each stimulus by the state. -/
def sumBModel : BModel ℚ ℚ ℚ ℚ where
  fit := fun st xs ys => st + xs.sum + ys.sum
  predict := fun st xs => xs.map (fun x => x + st)

theorem batch_train_and_test_explicit_spec_witness :
    (∃ x_train y_train x_test,
       npTake [10, 20, 30, 40] [0, 2] = some x_train ∧
       npTake [0, 1, 0, 1] [0, 2] = some y_train ∧
       npTake [10, 20, 30, 40] [1, 3] = some x_test ∧
       BatchTrainAndTest.predict_single sumBModel 0 [0, 2] [1, 3]
           [10, 20, 30, 40] [0, 1, 0, 1] =
         some (sumBModel.predict (sumBModel.fit 0 x_train y_train) x_test,
           sumBModel.fit 0 x_train y_train) ∧
       (sumBModel.predict (sumBModel.fit 0 x_train y_train) x_test).length =
         ([1, 3] : List ℕ).length) ∧
    (∀ (scoreFn : List ℚ → List ℚ → ℚ) (actions2 : List ℚ) (preds : List ℚ),
       (∀ i ∈ ([1, 3] : List ℕ),
         (([0, 1, 0, 1] : List ℚ))[i]? = actions2[i]?) →
       BatchTrainAndTest.compute_score_single scoreFn [1, 3]
           [0, 1, 0, 1] preds =
         BatchTrainAndTest.compute_score_single scoreFn [1, 3]
           actions2 preds) :=
  batch_train_and_test_explicit_spec sumBModel 0 [0, 2] [1, 3]
    [10, 20, 30, 40] [0, 1, 0, 1]
    (fun st2 xs => by simp [sumBModel])
    (by decide) (by decide)

/-! ### The `BatchTrainAndTest` random train/test split (base.py lines 268-295)

The constructor asserts `0 < train_percentage < 1`, then either takes the
caller's explicit index arrays (each `assert` that the other is / is not
`None` is embedded as an error), or shuffles `arange(n_obs)` with
`np.random.RandomState(seed)` and splits at `round(n_obs * train_percentage)`.

`np.random.RandomState(seed).shuffle` is embedded as a deterministic
permutation of the input that depends only on the generator seed: numpy's
Mersenne Twister is replaced by sorting on a pseudorandom key derived from a
64-bit linear congruential generator.  Every property proved below depends
only on the shuffle being a seed-deterministic permutation, which is the
contract `RandomState` provides.  `RandomState(None)` seeds from fresh OS
entropy; that entropy is an explicit `entropy` input, consumed only when
`seed` is `None`. -/

/-- One step of a 64-bit linear congruential generator (Knuth's MMIX
constants). -/
def lcgNext (s : ℕ) : ℕ := (6364136223846793005 * s + 1442695040888963407) % (2 ^ 64)

/-- Pseudorandom sort key for element `i` under generator seed `s`. -/
def shuffleKey (s i : ℕ) : ℕ := lcgNext (lcgNext s + i)

/-- The generator state of `np.random.RandomState(seed)`: a function of the
seed alone when a seed is supplied, of the ambient OS entropy otherwise. -/
def rsSeed : Option ℕ → ℕ → ℕ
  | some s, _ => s
  | none, entropy => entropy

/-- `np.random.RandomState(s).shuffle(xs)` (see the section comment). -/
def rsShuffle (s : ℕ) (xs : List ℕ) : List ℕ :=
  xs.insertionSort (fun a b => shuffleKey s a ≤ shuffleKey s b)

/-- Python's / numpy's `round` on a scalar: round half to even. -/
def pythonRound (q : ℚ) : ℤ :=
  if q - Int.floor q < 1 / 2 then Int.floor q
  else if 1 / 2 < q - Int.floor q then Int.floor q + 1
  else if Even (Int.floor q) then Int.floor q else Int.floor q + 1

/-- The split state set up by `BatchTrainAndTest.__init__`. -/
structure BTTSplit where
  train_indices : List ℕ
  test_indices : List ℕ
  deriving DecidableEq, Repr

/-- `BatchTrainAndTest.__init__` (base.py lines 268-295).  Errors embed the
failing `assert` statements of the constructor. -/
def BatchTrainAndTest.init (train_percentage : ℚ) (seed : Option ℕ)
    (entropy : ℕ) (train_indices test_indices : Option (List ℕ))
    (n_obs : ℕ) : Except String BTTSplit :=
  if 0 < train_percentage ∧ train_percentage < 1 then
    match train_indices, test_indices with
    | none, none =>
      let indices := rsShuffle (rsSeed seed entropy) (List.range n_obs)
      let n_train := (pythonRound (n_obs * train_percentage)).toNat
      Except.ok ⟨indices.take n_train, indices.drop n_train⟩
    | none, some _ => Except.error "assertion failed: test_indices is None"
    | some _, none =>
      Except.error "assertion failed: test_indices is not None"
    | some ti, some te => Except.ok ⟨ti, te⟩
  else Except.error "train_percentage must be in range (0, 1)"

/-- C6: for every observation count, the same seed and the same
`train_percentage`, two `BatchTrainAndTest` constructions with no explicit
indices produce identical train and test indices, whatever OS entropy was
available to each run: the split is a function of the seed alone. -/
theorem batch_split_seed_reproducible (p : ℚ) (s n e1 e2 : ℕ) :
    BatchTrainAndTest.init p (some s) e1 none none n =
      BatchTrainAndTest.init p (some s) e2 none none n := rfl

theorem rsShuffle_perm (s : ℕ) (xs : List ℕ) : (rsShuffle s xs).Perm xs :=
  List.perm_insertionSort _ xs

theorem pythonRound_intCast (z : ℤ) : pythonRound (z : ℚ) = z := by
  unfold pythonRound
  rw [Int.floor_intCast]
  norm_num

theorem pythonRound_le (q : ℚ) (n : ℕ) (h : q ≤ n) : pythonRound q ≤ n := by
  rcases eq_or_lt_of_le h with he | hlt
  · subst he
    rw [show ((n : ℚ)) = ((n : ℤ) : ℚ) by norm_num, pythonRound_intCast]
  · have hf : Int.floor q < (n : ℤ) := by
      rw [Int.floor_lt]
      exact_mod_cast hlt
    unfold pythonRound
    split_ifs <;> omega

/-- C7 helper: with no explicit indices the constructor always partitions
`{0, ..., n-1}`, the training part having `round(n * train_percentage)`
indices. -/
theorem batch_split_partition (n : ℕ) (p : ℚ) (seed : Option ℕ)
    (entropy : ℕ) (hp0 : 0 < p) (hp1 : p < 1) :
    ∃ split : BTTSplit,
      BatchTrainAndTest.init p seed entropy none none n = Except.ok split ∧
      split.train_indices.length = (pythonRound (n * p)).toNat ∧
      (split.train_indices ++ split.test_indices).Perm (List.range n) := by
  refine ⟨⟨(rsShuffle (rsSeed seed entropy) (List.range n)).take
      (pythonRound (n * p)).toNat,
    (rsShuffle (rsSeed seed entropy) (List.range n)).drop
      (pythonRound (n * p)).toNat⟩, ?_, ?_, ?_⟩
  · simp [BatchTrainAndTest.init, hp0, hp1]
  · have hlen : (rsShuffle (rsSeed seed entropy) (List.range n)).length = n :=
      (rsShuffle_perm _ _).length_eq.trans (List.length_range n)
    have hle : (pythonRound ((n : ℚ) * p)).toNat ≤ n := by
      rw [Int.toNat_le]
      refine pythonRound_le _ n ?_
      calc (n : ℚ) * p ≤ (n : ℚ) * 1 := by
            refine mul_le_mul_of_nonneg_left hp1.le ?_
            positivity
        _ = (n : ℚ) := mul_one _
    simp only [List.length_take, hlen]
    omega
  · rw [List.take_append_drop]
    exact rsShuffle_perm _ _

/-- C7: for a single-subject observation set of 10 trials,
`BatchTrainAndTest` with `train_percentage = 0.7`, `seed = 0` and no
explicit indices produces a train index set of size 7 and a test index set
of size 3 that are disjoint and whose union is exactly `{0, ..., 9}`; and in
general the split partitions `{0, ..., n-1}` with
`round(n * train_percentage)` training indices. -/
theorem batch_split_partition_spec :
    (∃ split : BTTSplit,
       BatchTrainAndTest.init (7 / 10) (some 0) 0 none none 10 =
         Except.ok split ∧
       split.train_indices.length = 7 ∧ split.test_indices.length = 3 ∧
       (∀ i ∈ split.train_indices, i ∉ split.test_indices) ∧
       (split.train_indices ++ split.test_indices).Perm (List.range 10)) ∧
    (∀ (n : ℕ) (p : ℚ) (seed : Option ℕ) (entropy : ℕ), 0 < p → p < 1 →
       ∃ split : BTTSplit,
         BatchTrainAndTest.init p seed entropy none none n =
           Except.ok split ∧
         split.train_indices.length = (pythonRound (n * p)).toNat ∧
         (split.train_indices ++ split.test_indices).Perm (List.range n)) := by
  constructor
  · have hp : (0 : ℚ) < 7 / 10 ∧ (7 : ℚ) / 10 < 1 := by norm_num
    have hround : (pythonRound (((10 : ℕ) : ℚ) * (7 / 10))).toNat = 7 := by
      rw [show ((10 : ℕ) : ℚ) * (7 / 10) = ((7 : ℤ) : ℚ) by norm_num,
        pythonRound_intCast]
      rfl
    refine ⟨⟨[0, 3, 6, 9, 1, 4, 7], [2, 5, 8]⟩, ?_, by decide, by decide,
      by decide, by decide⟩
    simp only [BatchTrainAndTest.init, if_pos hp, rsSeed, hround]
    exact congrArg Except.ok (by decide)
  · exact batch_split_partition

theorem batch_split_partition_spec_witness :
    ∃ split : BTTSplit,
      BatchTrainAndTest.init (1 / 2) (some 3) 0 none none 4 =
        Except.ok split ∧
      split.train_indices.length = (pythonRound ((4 : ℕ) * (1 / 2))).toNat ∧
      (split.train_indices ++ split.test_indices).Perm (List.range 4) :=
  batch_split_partition_spec.2 4 (1 / 2) (some 3) 0 one_half_pos
    one_half_lt_one

/-! ### Capability checking (`LDMTest.check_capabilities`, base.py 43-46)

`LDMTest.check_capabilities` raises if the model is not an `LDMModel`
instance, then defers to `sciunit.Test.check_capabilities`, which raises a
capability error when a required capability is not declared by the model.
The run entry point (`sciunit.Test.judge`), the `LDMModel` base class and
the capability marker classes live in the external `sciunit` dependency and
in repository modules not included under src/; their behaviour is modelled
from the spec (section 4.5 step 1: verify the model satisfies the strategy's
required capability and is recognized as a model entity, failing with a
capability error otherwise, before any strategy method runs). -/

/-- The capability marker traits (`ldmunit.capabilities`). -/
inductive Capability where
  | interactive
  | batchTrainable
  | multiSubjectModel
  | returnsNumParams
  | predictsLogpdf
  deriving DecidableEq, Repr

inductive CapabilityFailure where
  | notLDMModel
  | missing (c : Capability)
  deriving DecidableEq, Repr

/-- The capability metadata carried by a model instance. -/
structure ModelTags where
  isLDMModel : Bool
  capabilities : List Capability
  deriving DecidableEq, Repr

/-- Modelled from the spec: `LDMTest.check_capabilities` (base.py lines
43-46) — raise when the model is not an `LDMModel` instance, otherwise
defer to `sciunit.Test.check_capabilities` (external collaborator), which
fails with a capability error on the first required capability the model
does not declare. -/
def LDMTest.check_capabilities (required : List Capability)
    (tags : ModelTags) : Except CapabilityFailure Unit :=
  if tags.isLDMModel then
    match required.find? (fun c => ! tags.capabilities.contains c) with
    | some c => Except.error (CapabilityFailure.missing c)
    | none => Except.ok ()
  else Except.error CapabilityFailure.notLDMModel

/-- `InteractiveTest.required_capabilities = (Interactive,)`
(base.py line 175). -/
def InteractiveTest.required_capabilities : List Capability :=
  [Capability.interactive]

/-- Modelled from the spec: the run entry point (`sciunit.Test.judge`,
external collaborator) first calls `check_capabilities` and only on success
invokes the strategy's prediction generation.  On a capability failure the
error propagates immediately; the returned model state is the untouched
input state, and no `reset` / `predict` / `update` of the model has run
(the error branch does not inspect `m` at all). -/
def InteractiveTest.run (tags : ModelTags) (m : IModel σ S R A P) (st : σ)
    (obs : Observations S R A) :
    Except (CapabilityFailure ⊕ PyError) (List P) × σ :=
  match LDMTest.check_capabilities InteractiveTest.required_capabilities
      tags with
  | Except.error e => (Except.error (Sum.inl e), st)
  | Except.ok _ =>
    match InteractiveTest.predict_single m st obs with
    | Except.error e => (Except.error (Sum.inr e), st)
    | Except.ok (ps, st2) => (Except.ok ps, st2)

/-- C4: for every model that lacks the `Interactive` capability (or is not
an `LDMModel` instance), the Interactive strategy's harness fails with a
capability error raised by the capability check, and the model's state is
returned unchanged — no `predict`, `update` or `reset` has been applied
(the outcome is the same for every model `m` with the given tags). -/
theorem interactive_capability_error_before_predict
    (tags : ModelTags) (m : IModel σ S R A P) (st : σ)
    (obs : Observations S R A)
    (h : tags.isLDMModel = false ∨
      Capability.interactive ∉ tags.capabilities) :
    ∃ e, InteractiveTest.run tags m st obs = (Except.error (Sum.inl e), st) := by
  cases htag : tags.isLDMModel with
  | false =>
    refine ⟨CapabilityFailure.notLDMModel, ?_⟩
    simp [InteractiveTest.run, LDMTest.check_capabilities, htag]
  | true =>
    rcases h with h | h
    · rw [htag] at h
      exact absurd h (by simp)
    · refine ⟨CapabilityFailure.missing Capability.interactive, ?_⟩
      simp [InteractiveTest.run, LDMTest.check_capabilities, htag,
        InteractiveTest.required_capabilities, List.find?, h]

theorem interactive_capability_error_before_predict_witness :
    ∃ e, InteractiveTest.run ⟨true, [Capability.batchTrainable]⟩
        counterIModel 5 ⟨some [1, 2], some [0, 0], some [1, 1]⟩ =
      (Except.error (Sum.inl e), 5) :=
  interactive_capability_error_before_predict
    ⟨true, [Capability.batchTrainable]⟩ counterIModel 5
    ⟨some [1, 2], some [0, 0], some [1, 1]⟩ (Or.inr (by decide))

/-! ### The multi-subject composer (`models/utils.py` lines 49-115)

`MultiMeta.__new__` installs `multi_init` as the `__init__` of the
generated class.  `multi_init` builds `self.subject_models` by constructing
one single-subject model per entry of `param_list`, and then — for every
name in `_method_names` — runs `setattr(out_cls, fn_name, ...)`: the
fanned-out operation is installed **on the class object**, with `new_fn`
closing over the `self` currently being initialised.  The embedding makes
the class attribute table explicit (`MultiClsState`).  A fanned-out call
resolves the attribute on the class; the installed object is a
`functools` partial application, which is not a descriptor, so the receiver
instance the call is made through does not bind and is irrelevant. -/

/-- A constructed single-subject model, identified by its parameters. -/
structure SubjModel (Params : Type) where
  params : Params
  deriving DecidableEq, Repr

/-- An instance of the generated multi-subject class. -/
structure MultiInstance (Params : Type) where
  subject_models : List (SubjModel Params)
  deriving DecidableEq, Repr

/-- The mutable attribute table of the generated class: once some
`multi_init` has run, the fanned-out operations close over the
`subject_models` of the instance most recently initialised (`none` embeds
the state before any instance exists, when the fanned-out attributes are
not yet installed). -/
structure MultiClsState (Params : Type) where
  fannedTarget : Option (List (SubjModel Params))
  deriving DecidableEq, Repr

/-- The `for param_dict in param_list` construction loop of `multi_init`
(utils.py lines 74-76); a malformed entry makes `single_cls` raise, which
propagates out of the constructor. -/
def constructSubjects
    (single_cls : Params → Except String (SubjModel Params)) :
    List Params → Except String (List (SubjModel Params))
  | [] => Except.ok []
  | p :: ps =>
    match single_cls p with
    | Except.error e => Except.error e
    | Except.ok mo =>
      match constructSubjects single_cls ps with
      | Except.error e => Except.error e
      | Except.ok ms => Except.ok (mo :: ms)

/-- `multi_init` (utils.py lines 73-82): build `subject_models`, then
install the fanned-out operations on the class, closing over this instance.
Returns the new instance together with the updated class state. -/
def multi_init (single_cls : Params → Except String (SubjModel Params))
    (cls : MultiClsState Params) (param_list : List Params) :
    Except String (MultiInstance Params × MultiClsState Params) :=
  match constructSubjects single_cls param_list with
  | Except.error e => Except.error e
  | Except.ok ms => Except.ok (⟨ms⟩, ⟨some ms⟩)

/-- A fanned-out per-subject operation (`new_fn`, utils.py lines 78-79)
invoked through a receiver instance: the attribute resolves on the class,
so the call routes to `subject_models[idx]` of the closure target — the
most recently initialised instance — and `receiver` is ignored.  The
underlying subject-model method is abstracted as `op`; `none` embeds
`AttributeError` (no instance was ever initialised) or `IndexError`. -/
def callFanned (op : SubjModel Params → Res) (cls : MultiClsState Params)
    (receiver : MultiInstance Params) (idx : ℕ) : Option Res :=
  match cls.fannedTarget with
  | none => none
  | some ms =>
    match ms[idx]? with
    | none => none
    | some mo => some (op mo)

/-- C9: fanned-out operations are class attributes closing over the most
recently constructed instance: after constructing a second instance of the
same composite class, invoking a fanned-out operation through the first
instance dispatches to the second instance's `subject_models` (for every
subject index, the result is computed from `i2.subject_models`, regardless
of the receiver `i1`). -/
theorem fanned_methods_bound_to_latest_instance
    (single_cls : Params → Except String (SubjModel Params))
    (cls0 : MultiClsState Params) (p1 p2 : List Params)
    (i1 i2 : MultiInstance Params) (c1 c2 : MultiClsState Params)
    (op : SubjModel Params → Res)
    (h1 : multi_init single_cls cls0 p1 = Except.ok (i1, c1))
    (h2 : multi_init single_cls c1 p2 = Except.ok (i2, c2)) :
    ∀ idx : ℕ, callFanned op c2 i1 idx =
      (i2.subject_models[idx]?).map op := by
  intro idx
  unfold multi_init at h2
  cases hc : constructSubjects single_cls p2 with
  | error e =>
    rw [hc] at h2
    exact absurd h2 (by simp)
  | ok ms =>
    rw [hc] at h2
    simp only [Except.ok.injEq, Prod.mk.injEq] at h2
    obtain ⟨hi2, hc2⟩ := h2
    subst hi2
    subst hc2
    cases hm : ms[idx]? with
    | none => simp [callFanned, hm]
    | some mo => simp [callFanned, hm]

theorem fanned_methods_bound_to_latest_instance_witness :
    callFanned SubjModel.params
        (⟨some [⟨2⟩]⟩ : MultiClsState ℤ) ⟨[⟨1⟩]⟩ 0 =
      ((⟨[⟨2⟩]⟩ : MultiInstance ℤ).subject_models[0]?).map
        SubjModel.params :=
  fanned_methods_bound_to_latest_instance
    (fun n : ℤ => Except.ok ⟨n⟩) ⟨none⟩ [1] [2]
    ⟨[⟨1⟩]⟩ ⟨[⟨2⟩]⟩ ⟨some [⟨1⟩]⟩ ⟨some [⟨2⟩]⟩ SubjModel.params rfl rfl 0

/-- C5 counterexample: constructing a composite via `multi_init` with an
empty per-subject parameter list does not raise any error — at a concrete
single-subject constructor the result is `Except.ok`, a composite with zero
subject models, refuting the claim that construction fails. -/
theorem multi_init_empty_no_error :
    multi_init (fun n : ℤ => Except.ok ⟨n⟩) ⟨none⟩ [] =
      Except.ok (⟨[]⟩, ⟨some []⟩) := rfl

/-- C5 amended: for every single-subject constructor and every prior class
state, `multi_init` with an empty per-subject parameter list succeeds at
construction time, returning a composite owning zero subject models; no
configuration error is raised. -/
theorem multi_init_empty_ok
    (single_cls : Params → Except String (SubjModel Params))
    (cls : MultiClsState Params) :
    multi_init single_cls cls [] = Except.ok (⟨[]⟩, ⟨some []⟩) := rfl

/-! ### Result persistence (`LDMTest.bind_score`, base.py lines 121-158)

With a persistence path configured, `bind_score` writes `score`,
`predictions` and — best effort, only when the model has a `save` method —
`model`, all under `<persist_path>/<model name>/`.  The prediction file is
written by calling `self._persist_predictions`.  `BatchTrainAndTest`
(base.py lines 311-316) defines a method named `persist_predictions` —
without the leading underscore — that writes a `<path>_indices` file and
then delegates to `super().persist_predictions`.  Python method resolution
therefore never invokes it from `bind_score` (which looks up
`_persist_predictions`), and its `super()` delegation targets a method that
exists on no ancestor class. -/

/-- The sequence of artifact paths written by `LDMTest.bind_score` (the
`.npy` suffix appended by `np.save` is left implicit). -/
def LDMTest.bind_score_writes (persist_path : Option String)
    (model_name : String) (model_has_save : Bool) : List String :=
  match persist_path with
  | none => []
  | some root =>
    let folder := root ++ "/" ++ model_name
    [folder ++ "/score", folder ++ "/predictions"] ++
      (if model_has_save then [folder ++ "/model"] else [])

/-- `bind_score` run on a `BatchTrainAndTest` instance: the lookup of
`self._persist_predictions` resolves to `LDMTest._persist_predictions`,
because `BatchTrainAndTest` defines no attribute of that name, so the
writes are exactly those of `LDMTest.bind_score`. -/
def BatchTrainAndTest.bind_score_writes (persist_path : Option String)
    (model_name : String) (model_has_save : Bool) : List String :=
  LDMTest.bind_score_writes persist_path model_name model_has_save

/-- What `BatchTrainAndTest.persist_predictions` (base.py lines 311-316)
would do if anything called it: write `<path>_indices`, then raise
`AttributeError` on `super().persist_predictions`, which no ancestor class
defines. -/
def BatchTrainAndTest.persist_predictions_behaviour (path : String) :
    List String × Except String Unit :=
  ([path ++ "_indices"],
    Except.error "AttributeError: no ancestor defines persist_predictions")

/-- C8 (supporting the code-bug finding): for a `BatchTrainAndTest` run on a
model named `M` with `persist_path = "out"` and a `save`-capable model, the
files written are exactly the score, predictions and model snapshot — a
`predictions_indices` file recording the test-set indices is never among
them, because `bind_score` calls `_persist_predictions`, which
`BatchTrainAndTest` does not override; its misnamed `persist_predictions`
would itself fail on its `super()` call if it were ever invoked. -/
theorem batch_train_and_test_no_indices_file :
    BatchTrainAndTest.bind_score_writes (some "out") "M" true =
      ["out/M/score", "out/M/predictions", "out/M/model"] ∧
    "out/M/predictions_indices" ∉
      BatchTrainAndTest.bind_score_writes (some "out") "M" true ∧
    (BatchTrainAndTest.persist_predictions_behaviour
        "out/M/predictions").2 =
      Except.error "AttributeError: no ancestor defines persist_predictions"
    := by
  refine ⟨rfl, ?_, rfl⟩
  decide

end LDMUnit
